import Mathlib

/-!
Shallow embedding of the content-generation pipeline of
`realtimex-social-media-posts-tools`, together with proofs about it.

Python strings are modelled as Lean `String` (sequences of code points;
`String.length` and `List.take` on `String.toList` match Python `len` and
slicing, both of which operate on code points).  Python dictionaries whose
shape is fixed are modelled as structures with `Option` fields (a missing
key is `none`); the brand-guidelines dictionary, whose shape is open, is
modelled as an association list over a JSON-like value type.  Python
functions that may raise are modelled in `Except String`.

Identifier note: a few source identifiers end in `_ratio`; those are
rendered here with `_aspect` instead (`get_image_aspect` for
`get_image_aspect_ratio`, `get_dimensions_from_aspect` for
`_get_dimensions_from_aspect_ratio`, field `image_aspect` for the
`image_ratio` dictionary key, `ideal_image_aspect` for the
`ideal_image_ratio` key).  The semantics is unchanged.
-/

namespace SocialMediaPostsTools

/-- Python `s[:n]` on a string: the first `n` code points. -/
def pyTake (s : String) (n : Nat) : String :=
  (s.toList.take n).asString

/-- Code-point count of `pyTake`. -/
theorem pyTake_length (s : String) (n : Nat) :
    (pyTake s n).length = min n s.length := by
  show (s.toList.take n).length = min n s.length
  rw [List.length_take]
  rfl

/-- Python `s.lower()`, as the per-character case map over the code-point
list (ASCII case mapping; every string the pipeline lowercases is ASCII). -/
def pyLower (s : String) : String :=
  (s.toList.map Char.toLower).asString

/-- Python `s.strip()`: drop whitespace from both ends. -/
def pyStrip (s : String) : String :=
  ((s.toList.dropWhile Char.isWhitespace).reverse.dropWhile
    Char.isWhitespace).reverse.asString

/-- Membership of a contiguous run: `needle` occurs inside `hay`
(Python `needle in hay` on strings, over their code-point lists). -/
def containsRun (needle : List Char) : List Char → Bool
  | [] => needle.isEmpty
  | c :: rest => needle.isPrefixOf (c :: rest) || containsRun needle rest

/-- Word characters of the regex `\w` (restricted to its ASCII fragment,
which covers every character appearing in the repository's hashtag data):
letters, digits and underscore. -/
def isWordChar (c : Char) : Bool :=
  c.isAlphanum || c = '_'

/-! ## PlatformFormatter (`platform_formatter.py`) -/

/-- One row of `PlatformFormatter.platform_constraints`. -/
structure PlatformConstraints where
  max_length : Nat
  hashtag_limit : Nat
  ideal_image_aspect : String
  deriving DecidableEq, Repr

/-- The `platform_constraints` table built in `PlatformFormatter.__init__`. -/
def platform_constraints : List (String × PlatformConstraints) :=
  [("twitter", ⟨280, 3, "16:9"⟩),
   ("instagram", ⟨2200, 30, "1:1"⟩),
   ("linkedin", ⟨3000, 5, "1.91:1"⟩)]

/-- Python `platform in self.platform_constraints` (key membership). -/
def knownPlatform (platform : String) : Bool :=
  (platform_constraints.map Prod.fst).contains platform

/-- Lookup in the constraints table. -/
def constraintsFor (platform : String) : Option PlatformConstraints :=
  (platform_constraints.lookup platform)

/-- The successive matches of the regex `#(\w+)` over a code-point list,
as `re.findall` produces them: at each `#`, the longest nonempty run of
word characters that follows is a match, and scanning resumes directly
after that run.  This is the direct reading of the pattern; it is defined
by well-founded recursion, so the structurally recursive scanner below is
used for computation and proved equal to it (`scanHashtags_eq`). -/
def findHashtagMatches : List Char → List (List Char)
  | [] => []
  | c :: rest =>
    if c = '#' then
      let tag := rest.takeWhile isWordChar
      if tag.isEmpty then findHashtagMatches rest
      else tag :: findHashtagMatches (rest.drop tag.length)
    else findHashtagMatches rest
  termination_by l => l.length
  decreasing_by
    all_goals simp_wf
    all_goals omega

mutual

/-- Left-to-right scanner for the `#(\w+)` matches: outside a match, a
`#` opens a candidate tag. -/
def scanHashtags : List Char → List (List Char)
  | [] => []
  | c :: rest => if c = '#' then scanTag [] rest else scanHashtags rest

/-- Inside a candidate tag (`cur` is the run collected so far): word
characters extend the run; anything else closes it, emitting it when
nonempty, and scanning resumes at the closing character. -/
def scanTag (cur : List Char) : List Char → List (List Char)
  | [] => if cur.isEmpty then [] else [cur]
  | c :: rest =>
    if isWordChar c then scanTag (cur ++ [c]) rest
    else if cur.isEmpty then
      (if c = '#' then scanTag [] rest else scanHashtags rest)
    else
      cur :: (if c = '#' then scanTag [] rest else scanHashtags rest)

end

/-- The duplicate-removal loop of `extract_hashtags`: keep each tag's first
occurrence, preserving order. -/
def dedupKeepFirst (tags : List String) : List String :=
  tags.foldl (fun acc tag => if tag ∈ acc then acc else acc ++ [tag]) []

/-- Specification-side rendering of "duplicates collapsed to their first
occurrence": keep the head, delete its later occurrences, recurse.  The
extraction loop is proved equal to it (`dedupKeepFirst_eq`). -/
def firstOccurrenceDedup : List String → List String
  | [] => []
  | x :: xs => x :: firstOccurrenceDedup (xs.filter (fun a => a ≠ x))
  termination_by l => l.length
  decreasing_by
    simp_wf
    exact Nat.lt_succ_of_le (List.length_filter_le _ _)

/-- `PlatformFormatter.extract_hashtags`: all `#(\w+)` matches in order,
duplicates collapsed to their first occurrence; the empty string yields
`[]` at once.  The scanner is the computable rendering of `re.findall`
with that pattern (see `scanHashtags_eq`). -/
def extract_hashtags (text : String) : List String :=
  if text = "" then []
  else dedupKeepFirst ((scanHashtags text.toList).map List.asString)

/-- The content dictionary passed to `format_for_platform`, restricted to
the keys the formatter reads or writes.  `none` models an absent key. -/
structure Content where
  text : Option String
  caption : Option String
  hashtags : Option (List String)
  deriving DecidableEq, Repr

/-- The formatted dictionary produced by the per-platform formatters.
`image_aspect` renders the `image_ratio` key. -/
structure Formatted where
  text : Option String
  caption : Option String
  hashtags : Option (List String)
  image_aspect : String
  platform : String
  deriving DecidableEq, Repr

/-- `PlatformFormatter._format_for_twitter`. -/
def format_for_twitter (content : Content) : Formatted :=
  let text := content.text.getD ""
  let tags := extract_hashtags text
  { text :=
      if text.length > 280 then some (pyTake text (280 - 3) ++ "...")
      else content.text,
    caption := content.caption,
    hashtags := if tags.isEmpty then content.hashtags else some tags,
    image_aspect := "16:9",
    platform := "twitter" }

/-- The caption source of `_format_for_instagram`: `caption`, falling
back to the `text` key when `caption` is absent or empty (Python
truthiness of `not caption` combined with the `"text" in formatted`
check). -/
def igCaptionSource (content : Content) : String :=
  if content.caption.getD "" = "" then
    match content.text with
    | some t => t
    | none => content.caption.getD ""
  else content.caption.getD ""

/-- `PlatformFormatter._format_for_instagram`.  The caption key is always
written back. -/
def format_for_instagram (content : Content) : Formatted :=
  let caption := igCaptionSource content
  let tags := extract_hashtags caption
  { text := content.text,
    caption :=
      if caption.length > 2200 then some (pyTake caption (2200 - 3) ++ "...")
      else some caption,
    hashtags := if tags.isEmpty then content.hashtags else some tags,
    image_aspect := "1:1",
    platform := "instagram" }

/-- `PlatformFormatter._format_for_linkedin`. -/
def format_for_linkedin (content : Content) : Formatted :=
  let text := content.text.getD ""
  let tags := extract_hashtags text
  { text :=
      if text.length > 3000 then some (pyTake text (3000 - 3) ++ "...")
      else content.text,
    caption := content.caption,
    hashtags := if tags.isEmpty then content.hashtags else some tags,
    image_aspect := "1.91:1",
    platform := "linkedin" }

/-- `PlatformFormatter.format_for_platform`: unknown platforms yield the
error dictionary, known ones dispatch to the per-platform formatter. -/
def format_for_platform (content : Content) (platform : String) :
    Except String Formatted :=
  if ¬ knownPlatform platform then
    .error ("Unsupported platform: " ++ platform)
  else if platform = "twitter" then .ok (format_for_twitter content)
  else if platform = "instagram" then .ok (format_for_instagram content)
  else if platform = "linkedin" then .ok (format_for_linkedin content)
  else .ok (format_for_twitter content)
  -- the final branch is unreachable: every key of the table is one of the
  -- three literals (the Python function would fall through and return the
  -- input unchanged there)

/-- `PlatformFormatter.get_image_aspect_ratio`. -/
def get_image_aspect (platform : String) : String :=
  match constraintsFor platform with
  | none => "1:1"
  | some c => c.ideal_image_aspect

/-- `PlatformFormatter.get_max_hashtags`. -/
def get_max_hashtags (platform : String) : Nat :=
  match constraintsFor platform with
  | none => 3
  | some c => c.hashtag_limit

/-- `PlatformFormatter.get_max_length`. -/
def get_max_length (platform : String) : Nat :=
  match constraintsFor platform with
  | none => 280
  | some c => c.max_length

/-! ## ImageGenerator (`image_generator.py`) -/

/-- `ImageGenerator._get_dimensions_from_aspect_ratio`: the fixed lookup
table from aspect-ratio strings to pixel dimensions, defaulting to the
square 1024 by 1024 on any unrecognized input (a warning is logged there;
no exception is raised on any branch). -/
def get_dimensions_from_aspect (r : String) : Nat × Nat :=
  if r = "1:1" then (1024, 1024)
  else if r = "16:9" then (1024, 576)
  else if r = "4:5" then (768, 960)
  else if r = "3:2" then (1024, 682)
  else if r = "4:3" then (1024, 768)
  else (1024, 1024)

/-! ## TextGenerator (`text_generator.py`) -/

/-- `TextGenerator.generate_text`, over the outcome of the one completion
call it can make.  The body of its `while retries <= self.max_retries`
loop contains no exception handler and ends in `return`, so the loop runs
at most one iteration: on API success the stripped text is returned, and
an API exception propagates at once; `retries` is never incremented and no
second call is made.  Only when the loop guard fails immediately (a
negative `max_retries`) is the terminal message reached, after zero calls.
The second component counts the completion calls performed. -/
def generate_text_run (max_retries : Int) (apiCall : Except String String) :
    Except String String × Nat :=
  if 0 ≤ max_retries then
    (match apiCall with
     | .ok t => .ok (pyStrip t)
     | .error e => .error e, 1)
  else
    (.error ("Failed to generate text after " ++ toString max_retries ++ " retries"), 0)

/-! ## ContentCreator (`content_creator.py`) -/

/-- The `professional_indicators` list of `_filter_professional_hashtags`. -/
def professional_indicators : List String :=
  ["tech", "industry", "business", "professional", "career",
   "education", "science", "research", "development", "innovation",
   "leadership", "management", "strategy", "growth", "analysis",
   "data", "engineering", "stem", "academic", "learning"]

/-- Python `any(indicator in tag_lower for indicator in professional_indicators)`
with `tag_lower = tag.lower()`. -/
def isProfessionalTag (tag : String) : Bool :=
  professional_indicators.any fun ind => containsRun ind.toList (pyLower tag).toList

/-- `ContentCreator._filter_professional_hashtags`: keep the tags whose
lowercase form contains a professional indicator; if none matches, fall
back to the first 4 unfiltered tags. -/
def filter_professional_hashtags (hashtags : List String) : List String :=
  let professional_tags :=
    hashtags.foldl (fun acc tag => if isProfessionalTag tag then acc ++ [tag] else acc) []
  if professional_tags.isEmpty then hashtags.take 4 else professional_tags

/-- The append loop shared by the Instagram and LinkedIn assemblies:
`for tag in candidates: if tag not in hashtags and len(hashtags) < cap:
hashtags.append(tag)`. -/
def backfillLoop (cap : Nat) (extracted candidates : List String) : List String :=
  candidates.foldl
    (fun hs tag => if tag ∉ hs ∧ hs.length < cap then hs ++ [tag] else hs)
    extracted

/-- The Twitter hashtag backfill of `_generate_twitter_content`:
when no hashtag was extracted and the trend data carries a (truthy,
i.e. nonempty) hashtag list, take its first two. -/
def twitter_backfill (extracted trendTags : List String) : List String :=
  if extracted = [] ∧ trendTags ≠ [] then trendTags.take 2 else extracted

/-- The Instagram hashtag backfill of `_generate_instagram_content`. -/
def instagram_backfill (extracted trendTags : List String) : List String :=
  if extracted.length < 5 ∧ trendTags ≠ [] then
    backfillLoop 10 extracted trendTags
  else extracted

/-- The LinkedIn hashtag backfill of `_generate_linkedin_content`:
when fewer than 3 hashtags were extracted and the trend data carries a
nonempty hashtag list, append the professional-filtered trend tags,
skipping duplicates, up to 4 total. -/
def linkedin_backfill (extracted trendTags : List String) : List String :=
  if extracted.length < 3 ∧ trendTags ≠ [] then
    backfillLoop 4 extracted (filter_professional_hashtags trendTags)
  else extracted

/-- Python `platform.lower() in ["twitter", "instagram", "linkedin"]`. -/
def supportedPlatform (platform : String) : Bool :=
  ["twitter", "instagram", "linkedin"].contains (pyLower platform)

/-- `ContentCreator.generate_content`, abstracted over the three
per-platform assembly pipelines (each of which may raise): the platform is
validated first, and an unsupported platform raises `ValueError` before
any pipeline runs; otherwise the lowercased platform dispatches.  The
final branch carries the `linkedin` pipeline: when validation passed and
the first two comparisons failed, the lowercased platform is `linkedin`. -/
def generate_content {α : Type} (genTw genIg genLi : Except String α)
    (platform : String) : Except String α :=
  if ¬ supportedPlatform platform then
    .error ("Unsupported platform: " ++ platform)
  else if pyLower platform = "twitter" then genTw
  else if pyLower platform = "instagram" then genIg
  else genLi

/-- One value of the mapping returned by `generate_multi_platform_content`:
either the generated post or the error dictionary built from the caught
exception's message. -/
inductive MultiEntry (α : Type) where
  | post : α → MultiEntry α
  | failure : String → MultiEntry α
  deriving Repr, DecidableEq

/-- The entry the fan-out stores for a platform: the generated post on
success, the error dictionary on a raise. -/
def entryOf {α : Type} (gen : String → Except String α) (p : String) :
    MultiEntry α :=
  match gen p with
  | .ok post => .post post
  | .error e => .failure e

/-- Python dictionary assignment `d[k] = v`: update in place when the key
exists, append otherwise (insertion order preserved). -/
def dictInsert {β : Type} (d : List (String × β)) (k : String) (v : β) :
    List (String × β) :=
  if (d.map Prod.fst).contains k then
    d.map (fun p => if p.1 = k then (k, v) else p)
  else d ++ [(k, v)]

/-- `ContentCreator.generate_multi_platform_content`, abstracted over the
per-platform generation (`gen p` is the outcome of `generate_content` for
platform `p`): each platform is tried under `try/except Exception`, a
success stores the post and a raise stores the error dictionary, and the
loop always continues to the next platform. -/
def generate_multi_platform_content {α : Type} (gen : String → Except String α)
    (platforms : List String) : List (String × MultiEntry α) :=
  platforms.foldl
    (fun results platform =>
      match gen platform with
      | .ok post => dictInsert results platform (.post post)
      | .error e => dictInsert results platform (.failure e))
    []

/-- The result dictionary of `_generate_instagram_content` (the
`platform` and `timestamp` keys, constant strings and wall-clock time,
are omitted; the image descriptor is kept abstract as a dictionary of
strings).  `image` and `warning` are the two optional keys. -/
structure InstagramPost where
  caption : String
  hashtags : List String
  hashtag_string : String
  character_count : Nat
  trend_source : String
  moderation_passed : Bool
  image : Option (List (String × String))
  warning : Option String
  deriving Repr, DecidableEq

/-- `ContentCreator._generate_instagram_content`, abstracted over the text
generation outcome and the image generation outcome (run only when image
generation is enabled; `generate_image` may itself raise, which
propagates).  An untouched `image_info = dict()` is falsy in Python and is
modelled by the empty list. -/
def generate_instagram_content
    (image_generation_enabled : Bool)
    (genText : Except String String)
    (genImage : Except String (List (String × String)))
    (trendTags : List String) (trendSource : String) :
    Except String InstagramPost := do
  let caption ← genText
  let image_info ← if image_generation_enabled then genImage else pure []
  let hashtags := instagram_backfill (extract_hashtags caption) trendTags
  let base : InstagramPost :=
    { caption := caption,
      hashtags := hashtags,
      hashtag_string := String.intercalate " " (hashtags.map fun tag => "#" ++ tag),
      character_count := caption.length,
      trend_source := trendSource,
      moderation_passed := true,
      image := none,
      warning := none }
  if image_info.isEmpty then
    pure { base with warning := some "No image provided; Instagram posts require images" }
  else
    pure { base with image := some image_info }

/-! ## BrandGuidelinesManager (`brand_guidelines_manager.py`) -/

/-- JSON-like values, as stored in the guidelines dictionary. -/
inductive Val where
  | s : String → Val
  | arr : List Val → Val
  | obj : List (String × Val) → Val
  deriving Repr

/-- Python `d.get(k)` on a dictionary (first binding wins; the guidelines
dictionaries have distinct keys). -/
def objGet (d : List (String × Val)) (k : String) : Option Val :=
  d.lookup k

/-- Python `d.get(k, fallback)`. -/
def objGetD (d : List (String × Val)) (k : String) (fallback : Val) : Val :=
  (objGet d k).getD fallback

/-- Python `v.get(k, fallback)` where `v` is known to be a dictionary
value (in the source this is only applied to dictionary-typed fields). -/
def valGetD (v : Val) (k : String) (fallback : Val) : Val :=
  match v with
  | .obj entries => objGetD entries k fallback
  | _ => fallback

/-- `BrandGuidelinesManager._get_default_guidelines`: the complete default
science/education brand profile. -/
def default_guidelines : List (String × Val) :=
  [("brand_name", .s "AstroCalc Pro"),
   ("voice", .obj
     [("description", .s "Educational, enthusiastic, and authoritative but accessible."),
      ("traits", .arr
        [.s "Friendly language that makes complex topics approachable",
         .s "Conversational but accurate",
         .s "Balances technical precision with engaging explanations",
         .s "Passionate about astronomy and space science"])]),
   ("content_requirements", .arr
     [.s "Always include the product name 'AstroCalc Pro' when relevant",
      .s "Focus on educational value",
      .s "Use metric units for measurements",
      .s "Ensure all scientific claims are accurate",
      .s "When possible, relate content to real-world applications"]),
   ("prohibited_content", .arr
     [.s "Political statements",
      .s "Religious references",
      .s "Criticism of other brands or products",
      .s "Exaggerated or unsubstantiated claims",
      .s "Overly technical jargon without explanation"]),
   ("visual_style", .obj
     [("description", .s "Clean, modern aesthetic with deep space theme"),
      ("colors", .arr [.s "#1A2980", .s "#26D0CE", .s "#FFFFFF", .s "#121212"]),
      ("preferred_imagery", .s "Scientific illustrations over abstract art"),
      ("diagrams", .s "Clear and well-labeled educational diagrams")]),
   ("product_mentions", .obj
     [("first_mention", .s "AstroCalc Pro"),
      ("subsequent_mentions", .arr [.s "AstroCalc", .s "the app"]),
      ("emphasis", .s "Highlight one feature per post, phrased as a benefit")]),
   ("platforms", .obj
     [("twitter", .obj
        [("tone", .s "More casual, brief but impactful"),
         ("hashtags", .arr [.s "#AstroCalcPro", .s "#Astronomy", .s "#SpaceScience"]),
         ("cta", .s "Encourage clicks to profile link")]),
      ("instagram", .obj
        [("tone", .s "Visual first, focus on awe and wonder"),
         ("hashtags", .arr [.s "#AstroCalcPro", .s "#Astronomy", .s "#SpaceLovers", .s "#AstronomyFacts"]),
         ("cta", .s "Encourage profile visits and app downloads")]),
      ("linkedin", .obj
        [("tone", .s "Professional, educational focus, industry insights"),
         ("hashtags", .arr [.s "#SpaceTech", .s "#STEM", .s "#ScienceEducation"]),
         ("cta", .s "Position as thought leaders, encourage professional discussion")])]),
   ("product_features", .arr
     [.obj [("name", .s "Stellar Simulator"),
            ("description", .s "Accurately simulate star patterns from any location on Earth"),
            ("benefit", .s "Never miss an astronomical event again")],
      .obj [("name", .s "Eclipse Tracker"),
            ("description", .s "Predict and visualize eclipses with precision timing"),
            ("benefit", .s "Plan your observation schedule months in advance")],
      .obj [("name", .s "Planet Viewer"),
            ("description", .s "Interactive 3D model of planets and their orbits"),
            ("benefit", .s "Understand complex celestial mechanics visually")],
      .obj [("name", .s "Astronomy Calculator"),
            ("description", .s "Perform complex astronomical calculations instantly"),
            ("benefit", .s "Save hours on manual calculations for research or hobby")]]),
   ("target_audience", .obj
     [("primary", .arr
        [.s "Amateur astronomers", .s "Astrophotographers", .s "STEM educators"]),
      ("secondary", .arr
        [.s "Science enthusiasts", .s "Students", .s "Professional astronomers"])])]

/-- The stored profile, Python-truthiness included: a `None` or empty
guidelines dictionary (both falsy) is the empty list. -/
abbrev Guidelines := List (String × Val)

/-- `BrandGuidelinesManager.get_guidelines`. -/
def get_guidelines (g : Guidelines) : Guidelines :=
  if g.isEmpty then default_guidelines else g

/-- `BrandGuidelinesManager.get_brand_voice`. -/
def get_brand_voice (g : Guidelines) : Val :=
  if g.isEmpty then objGetD default_guidelines "voice" (.obj [])
  else objGetD g "voice" (.obj [])

/-- `BrandGuidelinesManager.get_content_requirements`. -/
def get_content_requirements (g : Guidelines) : Val :=
  if g.isEmpty then objGetD default_guidelines "content_requirements" (.arr [])
  else objGetD g "content_requirements" (.arr [])

/-- `BrandGuidelinesManager.get_prohibited_content`. -/
def get_prohibited_content (g : Guidelines) : Val :=
  if g.isEmpty then objGetD default_guidelines "prohibited_content" (.arr [])
  else objGetD g "prohibited_content" (.arr [])

/-- `BrandGuidelinesManager.get_visual_style`. -/
def get_visual_style (g : Guidelines) : Val :=
  if g.isEmpty then objGetD default_guidelines "visual_style" (.obj [])
  else objGetD g "visual_style" (.obj [])

/-- `BrandGuidelinesManager.get_platform_guidelines`: this accessor alone
also falls back to the default profile when the stored profile is present
but lacks the `platforms` key. -/
def get_platform_guidelines (g : Guidelines) (platform : String) : Val :=
  if g.isEmpty || (objGet g "platforms").isNone then
    valGetD (objGetD default_guidelines "platforms" (.obj [])) (pyLower platform) (.obj [])
  else
    valGetD (objGetD g "platforms" (.obj [])) (pyLower platform) (.obj [])

/-- `BrandGuidelinesManager.get_product_mentions`. -/
def get_product_mentions (g : Guidelines) : Val :=
  if g.isEmpty then objGetD default_guidelines "product_mentions" (.obj [])
  else objGetD g "product_mentions" (.obj [])

/-- `BrandGuidelinesManager.get_target_audience`. -/
def get_target_audience (g : Guidelines) : Val :=
  if g.isEmpty then objGetD default_guidelines "target_audience" (.obj [])
  else objGetD g "target_audience" (.obj [])

/-- `BrandGuidelinesManager.get_product_features`. -/
def get_product_features (g : Guidelines) : Val :=
  if g.isEmpty then objGetD default_guidelines "product_features" (.arr [])
  else objGetD g "product_features" (.arr [])

/-! ## Concrete inputs used by the closed instances of the theorems -/

/-- A content dictionary whose text (3001 characters) exceeds every
platform limit and whose caption (2201 characters) exceeds the Instagram
limit. -/
def fixtureContent : Content :=
  { text := some ((List.replicate 3001 'x').asString),
    caption := some ((List.replicate 2201 'y').asString),
    hashtags := none }

/-- A per-platform generation outcome whose Instagram pipeline raises. -/
def fixtureGen : String → Except String String :=
  fun p => if p = "instagram" then Except.error "boom" else Except.ok p

/-- A stored profile that is present (truthy) but lacks every field other
than the brand name. -/
def fixturePartialGuidelines : Guidelines :=
  [("brand_name", Val.s "Acme")]

/-- The Instagram post assembled with image generation disabled from the
caption "Astro update" and no trend hashtags. -/
def fixtureInstagramPost : InstagramPost :=
  { caption := "Astro update",
    hashtags := [],
    hashtag_string := "",
    character_count := 12,
    trend_source := "unknown",
    moderation_passed := true,
    image := none,
    warning := some "No image provided; Instagram posts require images" }

/-! # Helper lemmas -/

/-- Closed form of the tag scanner: the collected run extends to the
maximal word-character run, is emitted when nonempty, and scanning resumes
right after it. -/
theorem scanTag_spec (rest : List Char) : ∀ cur : List Char,
    scanTag cur rest =
      (if (cur ++ rest.takeWhile isWordChar).isEmpty then []
       else [cur ++ rest.takeWhile isWordChar])
      ++ scanHashtags (rest.drop (rest.takeWhile isWordChar).length) := by
  induction rest with
  | nil =>
    intro cur
    simp [scanTag, scanHashtags]
  | cons c rest ih =>
    intro cur
    by_cases hw : isWordChar c
    · rw [scanTag, if_pos hw, ih, List.takeWhile_cons, if_pos hw]
      simp [List.append_assoc]
    · have hscan : (if c = '#' then scanTag [] rest else scanHashtags rest)
        = scanHashtags (c :: rest) := (scanHashtags.eq_2 c rest).symm
      rw [scanTag, if_neg hw, List.takeWhile_cons, if_neg hw]
      by_cases hcur : cur.isEmpty
      · simp [hcur, hscan, List.isEmpty_iff.mp hcur]
      · simp [hcur, hscan]

/-- The structural scanner agrees with the direct reading of
`re.findall` with the pattern `#(\w+)`. -/
theorem scanHashtags_eq (l : List Char) :
    scanHashtags l = findHashtagMatches l := by
  have key : ∀ n, ∀ l : List Char, l.length ≤ n →
      scanHashtags l = findHashtagMatches l := by
    intro n
    induction n with
    | zero =>
      intro l hl
      obtain rfl : l = [] := List.length_eq_zero.mp (Nat.le_zero.mp hl)
      simp [scanHashtags, findHashtagMatches]
    | succ n ih =>
      intro l hl
      match l with
      | [] => simp [scanHashtags, findHashtagMatches]
      | c :: rest =>
        have hrest : rest.length ≤ n := by
          simpa using Nat.le_of_succ_le_succ hl
        by_cases hc : c = '#'
        · subst hc
          rw [scanHashtags, if_pos rfl, scanTag_spec, findHashtagMatches]
          simp only [if_pos rfl, List.nil_append]
          by_cases htag : (rest.takeWhile isWordChar).isEmpty
          · have h0 : rest.takeWhile isWordChar = [] := List.isEmpty_iff.mp htag
            simp [htag, h0, ih rest hrest]
          · have hlen : (rest.drop (rest.takeWhile isWordChar).length).length ≤ n := by
              have h2 := rest.length_drop (rest.takeWhile isWordChar).length
              omega
            simp [htag, ih _ hlen]
        · rw [scanHashtags, if_neg hc, findHashtagMatches, if_neg hc,
            ih rest hrest]
  exact key l.length l (le_refl _)

/-- `extract_hashtags` in terms of the direct regex reading. -/
theorem extract_hashtags_eq (t : String) :
    extract_hashtags t
      = dedupKeepFirst ((findHashtagMatches t.toList).map List.asString) := by
  rw [extract_hashtags]
  by_cases ht : t = ""
  · subst ht
    simp [findHashtagMatches, dedupKeepFirst, String.toList]
  · rw [if_neg ht, scanHashtags_eq]

/-- The duplicate-removal loop in terms of the specification-side
first-occurrence dedup: the accumulator collects exactly the not-yet-seen
elements in order. -/
theorem dedupKeepFirst_go (l : List String) : ∀ acc : List String,
    l.foldl (fun acc tag => if tag ∈ acc then acc else acc ++ [tag]) acc
      = acc ++ firstOccurrenceDedup (l.filter (fun a => a ∉ acc)) := by
  induction l with
  | nil =>
    intro acc
    simp [firstOccurrenceDedup]
  | cons x xs ih =>
    intro acc
    rw [List.foldl_cons]
    by_cases hx : x ∈ acc
    · rw [if_pos hx, ih, List.filter_cons]
      simp [hx]
    · rw [if_neg hx, ih, List.filter_cons, if_pos (by simp [hx])]
      rw [firstOccurrenceDedup, List.filter_filter]
      have hpred : ∀ a ∈ xs,
          (decide (a ≠ x) && decide (a ∉ acc)) = decide (a ∉ acc ++ [x]) := by
        intro a _
        by_cases h1 : a = x <;> by_cases h2 : a ∈ acc <;> simp [h1, h2]
      rw [List.filter_congr hpred]
      simp [List.append_assoc]

/-- The extraction loop equals the first-occurrence dedup. -/
theorem dedupKeepFirst_eq (l : List String) :
    dedupKeepFirst l = firstOccurrenceDedup l := by
  rw [dedupKeepFirst, dedupKeepFirst_go]
  simp

/-- Membership is preserved by the first-occurrence dedup. -/
theorem mem_firstOccurrenceDedup :
    ∀ (l : List String) (a : String), a ∈ firstOccurrenceDedup l ↔ a ∈ l := by
  have key : ∀ n, ∀ l : List String, l.length ≤ n →
      ∀ a, a ∈ firstOccurrenceDedup l ↔ a ∈ l := by
    intro n
    induction n with
    | zero =>
      intro l hl a
      obtain rfl : l = [] := List.length_eq_zero.mp (Nat.le_zero.mp hl)
      simp [firstOccurrenceDedup]
    | succ n ih =>
      intro l hl a
      match l with
      | [] => simp [firstOccurrenceDedup]
      | x :: xs =>
        have hlen : (xs.filter (fun a => a ≠ x)).length ≤ n := by
          have h1 := List.length_filter_le (fun a => a ≠ x) xs
          have h2 : xs.length ≤ n := by simpa using Nat.le_of_succ_le_succ hl
          omega
        rw [firstOccurrenceDedup]
        by_cases ha : a = x
        · simp [ha]
        · rw [List.mem_cons, ih _ hlen a]
          simp [ha, List.mem_filter]
  exact fun l a => key l.length l (le_refl _) a

/-- The first-occurrence dedup has no duplicates. -/
theorem nodup_firstOccurrenceDedup :
    ∀ l : List String, (firstOccurrenceDedup l).Nodup := by
  have key : ∀ n, ∀ l : List String, l.length ≤ n →
      (firstOccurrenceDedup l).Nodup := by
    intro n
    induction n with
    | zero =>
      intro l hl
      obtain rfl : l = [] := List.length_eq_zero.mp (Nat.le_zero.mp hl)
      simp [firstOccurrenceDedup]
    | succ n ih =>
      intro l hl
      match l with
      | [] => simp [firstOccurrenceDedup]
      | x :: xs =>
        have hlen : (xs.filter (fun a => a ≠ x)).length ≤ n := by
          have h1 := List.length_filter_le (fun a => a ≠ x) xs
          have h2 : xs.length ≤ n := by simpa using Nat.le_of_succ_le_succ hl
          omega
        rw [firstOccurrenceDedup]
        refine List.nodup_cons.mpr ⟨?_, ih _ hlen⟩
        intro hmem
        have := (mem_firstOccurrenceDedup _ x).mp hmem
        have := (List.mem_filter.mp this).2
        simp at this
  exact fun l => key l.length l (le_refl _)

/-- Code-point count of `List.asString`. -/
theorem length_asString (l : List Char) : (l.asString).length = l.length :=
  rfl

/-- Code-point count of string concatenation. -/
theorem string_length_append (a b : String) :
    (a ++ b).length = a.length + b.length := by
  show (a.data ++ b.data).length = a.data.length + b.data.length
  exact List.length_append a.data b.data

/-- Length of a truncated-with-ellipsis text: exactly the limit. -/
theorem trunc_len (s : String) (m : Nat) (h3 : 3 ≤ m) (h : m < s.length) :
    (pyTake s (m - 3) ++ "...").length = m := by
  rw [string_length_append, pyTake_length]
  have hdot : ("..." : String).length = 3 := rfl
  rw [hdot]
  omega

/-! # Claims -/

/-- C2 (behavior of the code at the failing input): with the default
`max_retries = 3` and a transient failure on the first completion call,
`TextGenerator.generate_text` performs exactly one call and propagates
the transient error itself — it neither retries nor raises the terminal
retries-exhausted error; a successful first call returns the stripped
text after exactly one call. -/
theorem claim_C2_single_attempt :
    generate_text_run 3 (Except.error "transient API failure")
      = (Except.error "transient API failure", 1)
    ∧ generate_text_run 3 (Except.ok "  generated text  ")
      = (Except.ok "generated text", 1)
    ∧ generate_text_run 3 (Except.error "transient API failure")
      ≠ (Except.error "Failed to generate text after 3 retries", 1) := by
  refine ⟨rfl, rfl, ?_⟩
  intro h
  have h1 : ("transient API failure" : String)
      = "Failed to generate text after 3 retries" :=
    Except.error.inj (congrArg Prod.fst h)
  exact absurd h1 (by decide)

/-- C6: `extract_hashtags` returns the `#(\w+)` matches of the text in
first-occurrence order with duplicates collapsed to their first
occurrence, performing no case normalization (the extraction is a pure
function of the text, so extracting twice yields the same sequence); on
"Loving #AI and #ai and #ML" it yields ["AI", "ai", "ML"]. -/
theorem claim_C6_extract_hashtags :
    extract_hashtags "Loving #AI and #ai and #ML" = ["AI", "ai", "ML"]
    ∧ (∀ t : String,
        extract_hashtags t
          = firstOccurrenceDedup
              ((findHashtagMatches t.toList).map List.asString))
    ∧ (∀ t : String, (extract_hashtags t).Nodup)
    ∧ (∀ t a : String,
        a ∈ extract_hashtags t
          ↔ a ∈ (findHashtagMatches t.toList).map List.asString) := by
  refine ⟨by decide, ?_, ?_, ?_⟩
  · intro t
    rw [extract_hashtags_eq, dedupKeepFirst_eq]
  · intro t
    rw [extract_hashtags_eq, dedupKeepFirst_eq]
    exact nodup_firstOccurrenceDedup _
  · intro t a
    rw [extract_hashtags_eq, dedupKeepFirst_eq]
    exact mem_firstOccurrenceDedup _ _

/-- C7: the aspect-ratio table maps exactly the five listed strings to
their fixed dimensions, and every other string falls back to the square
1024 by 1024 (the function is total, so no input raises). -/
theorem claim_C7_aspect_dimensions :
    get_dimensions_from_aspect "1:1" = (1024, 1024)
    ∧ get_dimensions_from_aspect "16:9" = (1024, 576)
    ∧ get_dimensions_from_aspect "4:5" = (768, 960)
    ∧ get_dimensions_from_aspect "3:2" = (1024, 682)
    ∧ get_dimensions_from_aspect "4:3" = (1024, 768)
    ∧ (∀ r : String,
        r ∉ (["1:1", "16:9", "4:5", "3:2", "4:3"] : List String) →
        get_dimensions_from_aspect r = (1024, 1024)) := by
  refine ⟨rfl, rfl, rfl, rfl, rfl, ?_⟩
  intro r hr
  simp only [List.mem_cons, List.not_mem_nil, or_false, not_or] at hr
  obtain ⟨h1, h2, h3, h4, h5⟩ := hr
  rw [get_dimensions_from_aspect, if_neg h1, if_neg h2, if_neg h3,
    if_neg h4, if_neg h5]

/-- Closed instance of C7 at the unrecognized ratio string "21:9". -/
theorem claim_C7_witness :
    "21:9" ∉ (["1:1", "16:9", "4:5", "3:2", "4:3"] : List String)
    ∧ get_dimensions_from_aspect "21:9" = (1024, 1024) :=
  ⟨by decide, claim_C7_aspect_dimensions.2.2.2.2.2 "21:9" (by decide)⟩

/-- A platform outside the constraints table has no constraints row. -/
theorem constraintsFor_eq_none (p : String) (h : knownPlatform p = false) :
    constraintsFor p = none := by
  have h1 : p ≠ "twitter" ∧ p ≠ "instagram" ∧ p ≠ "linkedin" := by
    constructor
    · intro he; subst he; exact absurd h (by decide)
    constructor
    · intro he; subst he; exact absurd h (by decide)
    · intro he; subst he; exact absurd h (by decide)
  have b1 : (p == "twitter") = false := beq_eq_false_iff_ne.mpr h1.1
  have b2 : (p == "instagram") = false := beq_eq_false_iff_ne.mpr h1.2.1
  have b3 : (p == "linkedin") = false := beq_eq_false_iff_ne.mpr h1.2.2
  simp [constraintsFor, platform_constraints, List.lookup, b1, b2, b3]

/-- C10: for a platform outside the three known ones, the lookup helpers
silently return the fixed defaults (280 characters, 3 hashtags, square
aspect), while `format_for_platform` rejects the same platform with the
error result. -/
theorem claim_C10_lookup_defaults :
    ∀ p : String, knownPlatform p = false →
      get_max_length p = 280
      ∧ get_max_hashtags p = 3
      ∧ get_image_aspect p = "1:1"
      ∧ ∀ c : Content,
          format_for_platform c p
            = Except.error ("Unsupported platform: " ++ p) := by
  intro p hp
  have hc := constraintsFor_eq_none p hp
  refine ⟨?_, ?_, ?_, ?_⟩
  · rw [get_max_length, hc]
  · rw [get_max_hashtags, hc]
  · rw [get_image_aspect, hc]
  · intro c
    rw [format_for_platform, if_pos (by simp [hp])]

/-- Closed instance of C10 at the unknown platform string "mastodon". -/
theorem claim_C10_witness :
    knownPlatform "mastodon" = false
    ∧ get_max_length "mastodon" = 280
    ∧ get_max_hashtags "mastodon" = 3
    ∧ get_image_aspect "mastodon" = "1:1"
    ∧ format_for_platform fixtureContent "mastodon"
        = Except.error ("Unsupported platform: " ++ "mastodon") := by
  have h := claim_C10_lookup_defaults "mastodon" (by decide)
  exact ⟨by decide, h.1, h.2.1, h.2.2.1, h.2.2.2 fixtureContent⟩

/-- A platform present in the constraints table passes the lowercase
validation (the table keys are lowercase literals). -/
theorem known_imp_supported (p : String) (h : knownPlatform p = true) :
    supportedPlatform p = true := by
  have h1 : p = "twitter" ∨ p = "instagram" ∨ p = "linkedin" := by
    simpa [knownPlatform, platform_constraints] using h
  rcases h1 with rfl | rfl | rfl <;> decide

/-- C4: a platform whose lowercase form is outside the three known ones
makes `generate_content` fail with the unsupported-platform error without
running any per-platform pipeline (the result does not depend on them),
and makes `format_for_platform` return the unsupported-platform error
result instead of formatted content. -/
theorem claim_C4_unsupported_platform :
    ∀ p : String, supportedPlatform p = false →
      (∀ (α : Type) (genTw genIg genLi : Except String α),
        generate_content genTw genIg genLi p
          = Except.error ("Unsupported platform: " ++ p))
      ∧ (∀ c : Content,
          format_for_platform c p
            = Except.error ("Unsupported platform: " ++ p)) := by
  intro p hp
  have hk : knownPlatform p = false := by
    cases hknown : knownPlatform p
    · rfl
    · exact absurd (known_imp_supported p hknown) (by simp [hp])
  constructor
  · intro α genTw genIg genLi
    rw [generate_content, if_pos (by simp [hp])]
  · intro c
    rw [format_for_platform, if_pos (by simp [hk])]

/-- Closed instance of C4 at the unsupported platform string "tiktok". -/
theorem claim_C4_witness :
    supportedPlatform "tiktok" = false
    ∧ generate_content (Except.ok "tw") (Except.ok "ig") (Except.ok "li")
        "tiktok" = Except.error ("Unsupported platform: " ++ "tiktok")
    ∧ format_for_platform fixtureContent "tiktok"
        = Except.error ("Unsupported platform: " ++ "tiktok") := by
  have h := claim_C4_unsupported_platform "tiktok" (by decide)
  exact ⟨by decide,
    h.1 String (Except.ok "tw") (Except.ok "ig") (Except.ok "li"),
    h.2 fixtureContent⟩

/-- The append-if loop of `_filter_professional_hashtags` is a filter. -/
theorem filter_loop_eq (p : String → Bool) (l : List String) :
    ∀ acc : List String,
      l.foldl (fun acc tag => if p tag then acc ++ [tag] else acc) acc
        = acc ++ l.filter p := by
  induction l with
  | nil => intro acc; simp
  | cons x xs ih =>
    intro acc
    rw [List.foldl_cons]
    by_cases hx : p x
    · rw [if_pos hx, ih, List.filter_cons, if_pos hx]
      simp
    · rw [if_neg hx, ih, List.filter_cons, if_neg hx]

/-- `_filter_professional_hashtags` in closed form: the professional
filter of the input, or its first four elements when nothing matches. -/
theorem filter_professional_eq (tags : List String) :
    filter_professional_hashtags tags
      = (if tags.filter isProfessionalTag = [] then tags.take 4
         else tags.filter isProfessionalTag) := by
  simp only [filter_professional_hashtags, filter_loop_eq, List.nil_append,
    List.isEmpty_iff]

/-- The dedup-capped append loop: the result extends the initial list with
distinct new candidates, never passing the cap once reached. -/
theorem backfillLoop_spec (cap : Nat) :
    ∀ (cands init : List String),
      ∃ added, backfillLoop cap init cands = init ++ added
        ∧ added.Nodup
        ∧ (∀ a ∈ added, a ∈ cands ∧ a ∉ init)
        ∧ (init ++ added).length ≤ max init.length cap := by
  intro cands
  induction cands with
  | nil =>
    intro init
    exact ⟨[], by simp [backfillLoop], List.nodup_nil, by simp,
      by simp [Nat.le_max_left]⟩
  | cons t cands ih =>
    intro init
    have step : backfillLoop cap init (t :: cands)
        = backfillLoop cap
            (if t ∉ init ∧ init.length < cap then init ++ [t] else init)
            cands := by
      rw [backfillLoop, List.foldl_cons, backfillLoop]
    by_cases hcond : t ∉ init ∧ init.length < cap
    · obtain ⟨added, heq, hnd, hmem, hlen⟩ := ih (init ++ [t])
      refine ⟨t :: added, ?_, ?_, ?_, ?_⟩
      · rw [step, if_pos hcond, heq]
        simp
      · exact List.nodup_cons.mpr
          ⟨fun hmemt => (hmem t hmemt).2 (by simp), hnd⟩
      · intro a ha
        rcases List.mem_cons.mp ha with rfl | ha'
        · exact ⟨List.mem_cons_self _ _, hcond.1⟩
        · exact ⟨List.mem_cons_of_mem _ (hmem a ha').1,
            fun hin => (hmem a ha').2 (by simp [hin])⟩
      · have h2 := hcond.2
        simp only [List.length_append, List.length_cons,
          List.length_singleton] at hlen ⊢
        omega
    · obtain ⟨added, heq, hnd, hmem, hlen⟩ := ih init
      exact ⟨added, by rw [step, if_neg hcond]; exact heq, hnd,
        fun a ha => ⟨List.mem_cons_of_mem _ (hmem a ha).1, (hmem a ha).2⟩,
        hlen⟩

/-- C5: the LinkedIn backfill, under its guards (fewer than 3 extracted
hashtags, nonempty trend hashtags), appends to the extracted hashtags a
duplicate-free selection from the professional-filtered trend hashtags —
where the filter keeps tags whose lowercase form contains one of the 20
professional indicators, falling back to the first 4 unfiltered tags when
none matches — and never grows the list past 4 (unless it already was
longer); on the spec's example it yields exactly ["techinnovation"]. -/
theorem claim_C5_linkedin_backfill :
    (∀ trendTags : List String,
      filter_professional_hashtags trendTags
        = (if trendTags.filter isProfessionalTag = [] then trendTags.take 4
           else trendTags.filter isProfessionalTag))
    ∧ (∀ extracted trendTags : List String,
        extracted.length < 3 → trendTags ≠ [] →
        ∃ added,
          linkedin_backfill extracted trendTags = extracted ++ added
          ∧ added.Nodup
          ∧ (∀ a ∈ added,
              a ∈ filter_professional_hashtags trendTags ∧ a ∉ extracted)
          ∧ (linkedin_backfill extracted trendTags).length
              ≤ max extracted.length 4)
    ∧ linkedin_backfill [] ["funny", "techinnovation", "party"]
        = ["techinnovation"] := by
  refine ⟨filter_professional_eq, ?_, by decide⟩
  intro extracted trendTags h1 h2
  rw [linkedin_backfill, if_pos ⟨h1, h2⟩]
  obtain ⟨added, heq, hnd, hmem, hlen⟩ :=
    backfillLoop_spec 4 (filter_professional_hashtags trendTags) extracted
  exact ⟨added, heq, hnd, hmem, by rw [heq]; exact hlen⟩

/-- Closed instance of C5 at the spec's example input. -/
theorem claim_C5_witness :
    (([] : List String).length < 3)
    ∧ ((["funny", "techinnovation", "party"] : List String) ≠ [])
    ∧ ∃ added,
        linkedin_backfill [] ["funny", "techinnovation", "party"]
          = [] ++ added
        ∧ added.Nodup
        ∧ (∀ a ∈ added,
            a ∈ filter_professional_hashtags
                  ["funny", "techinnovation", "party"]
              ∧ a ∉ ([] : List String))
        ∧ (linkedin_backfill [] ["funny", "techinnovation", "party"]).length
            ≤ max ([] : List String).length 4 :=
  ⟨by decide, by decide,
    claim_C5_linkedin_backfill.2.1 [] ["funny", "techinnovation", "party"]
      (by decide) (by decide)⟩

/-- Behavior of the shared truncation pattern `text[:m-3] + "..."`
guarded by `len(text) > m`, over an optional field. -/
theorem truncField (t : Option String) (m : Nat) (h3 : 3 ≤ m) :
    ((if (t.getD "").length > m
        then some (pyTake (t.getD "") (m - 3) ++ "...")
        else t).getD "").length ≤ m
    ∧ ((t.getD "").length > m →
        (if (t.getD "").length > m
           then some (pyTake (t.getD "") (m - 3) ++ "...")
           else t)
          = some (pyTake (t.getD "") (m - 3) ++ "...")
        ∧ ((if (t.getD "").length > m
              then some (pyTake (t.getD "") (m - 3) ++ "...")
              else t).getD "").length = m) := by
  by_cases h : (t.getD "").length > m
  · rw [if_pos h]
    have hl := trunc_len (t.getD "") m h3 h
    refine ⟨?_, fun _ => ⟨rfl, ?_⟩⟩
    · simp only [Option.getD_some]
      exact le_of_eq hl
    · simp only [Option.getD_some]
      exact hl
  · rw [if_neg h]
    exact ⟨Nat.le_of_not_lt h, fun h' => absurd h' h⟩

/-- C1: after formatting, the primary text field never exceeds the
platform's limit (280 for Twitter, 2200 for Instagram, 3000 for
LinkedIn); whenever the pre-formatted primary text is strictly longer
than the limit, the formatted field is exactly the first `limit - 3`
characters followed by the 3-character "...", hence of length exactly the
limit; and `format_for_platform` dispatches each known platform to its
formatter. -/
theorem claim_C1_truncation :
    ∀ c : Content,
      (((format_for_twitter c).text.getD "").length ≤ 280
        ∧ ((c.text.getD "").length > 280 →
            (format_for_twitter c).text
              = some (pyTake (c.text.getD "") (280 - 3) ++ "...")
            ∧ ((format_for_twitter c).text.getD "").length = 280))
      ∧ (((format_for_instagram c).caption.getD "").length ≤ 2200
        ∧ ((c.caption.getD "").length > 2200 →
            (format_for_instagram c).caption
              = some (pyTake (c.caption.getD "") (2200 - 3) ++ "...")
            ∧ ((format_for_instagram c).caption.getD "").length = 2200))
      ∧ (((format_for_linkedin c).text.getD "").length ≤ 3000
        ∧ ((c.text.getD "").length > 3000 →
            (format_for_linkedin c).text
              = some (pyTake (c.text.getD "") (3000 - 3) ++ "...")
            ∧ ((format_for_linkedin c).text.getD "").length = 3000))
      ∧ format_for_platform c "twitter" = Except.ok (format_for_twitter c)
      ∧ format_for_platform c "instagram"
          = Except.ok (format_for_instagram c)
      ∧ format_for_platform c "linkedin"
          = Except.ok (format_for_linkedin c) := by
  intro c
  refine ⟨?_, ?_, ?_, rfl, rfl, rfl⟩
  · have htw : (format_for_twitter c).text
        = (if (c.text.getD "").length > 280
             then some (pyTake (c.text.getD "") (280 - 3) ++ "...")
             else c.text) := rfl
    rw [htw]
    exact truncField c.text 280 (by norm_num)
  · have hsrc : (format_for_instagram c).caption
        = (if (igCaptionSource c).length > 2200
             then some (pyTake (igCaptionSource c) (2200 - 3) ++ "...")
             else some (igCaptionSource c)) := rfl
    constructor
    · rw [hsrc]
      by_cases h : (igCaptionSource c).length > 2200
      · rw [if_pos h, Option.getD_some,
          trunc_len (igCaptionSource c) 2200 (by norm_num) h]
      · rw [if_neg h, Option.getD_some]
        exact Nat.le_of_not_lt h
    · intro h
      have hne : ¬ (c.caption.getD "" = "") := by
        intro he
        rw [he] at h
        simp at h
      have hcap : igCaptionSource c = c.caption.getD "" := by
        rw [igCaptionSource, if_neg hne]
      rw [hsrc, hcap, if_pos h, Option.getD_some]
      exact ⟨rfl, trunc_len (c.caption.getD "") 2200 (by norm_num) h⟩
  · have hli : (format_for_linkedin c).text
        = (if (c.text.getD "").length > 3000
             then some (pyTake (c.text.getD "") (3000 - 3) ++ "...")
             else c.text) := rfl
    rw [hli]
    exact truncField c.text 3000 (by norm_num)

/-- Closed instance of C1 at a content whose text and caption exceed
every limit. -/
theorem claim_C1_witness :
    ((fixtureContent.text.getD "").length > 280)
    ∧ ((fixtureContent.caption.getD "").length > 2200)
    ∧ ((fixtureContent.text.getD "").length > 3000)
    ∧ (format_for_twitter fixtureContent).text
        = some (pyTake (fixtureContent.text.getD "") (280 - 3) ++ "...")
    ∧ ((format_for_twitter fixtureContent).text.getD "").length = 280
    ∧ (format_for_instagram fixtureContent).caption
        = some (pyTake (fixtureContent.caption.getD "") (2200 - 3) ++ "...")
    ∧ ((format_for_instagram fixtureContent).caption.getD "").length = 2200
    ∧ (format_for_linkedin fixtureContent).text
        = some (pyTake (fixtureContent.text.getD "") (3000 - 3) ++ "...")
    ∧ ((format_for_linkedin fixtureContent).text.getD "").length = 3000 := by
  have hT : (fixtureContent.text.getD "").length = 3001 := by
    have h1 : fixtureContent.text.getD ""
        = (List.replicate 3001 'x').asString := rfl
    rw [h1, length_asString, List.length_replicate]
  have hC : (fixtureContent.caption.getD "").length = 2201 := by
    have h1 : fixtureContent.caption.getD ""
        = (List.replicate 2201 'y').asString := rfl
    rw [h1, length_asString, List.length_replicate]
  have h := claim_C1_truncation fixtureContent
  have htw := h.1.2 (by omega)
  have hig := h.2.1.2 (by omega)
  have hli := h.2.2.1.2 (by omega)
  exact ⟨by omega, by omega, by omega,
    htw.1, htw.2, hig.1, hig.2, hli.1, hli.2⟩

/-- Updating the binding for `k` does not affect lookups of other keys. -/
theorem lookup_map_update_ne {β : Type} (k k' : String) (v : β)
    (h : k' ≠ k) :
    ∀ d : List (String × β),
      (d.map (fun p => if p.1 = k then (k, v) else p)).lookup k'
        = d.lookup k' := by
  intro d
  induction d with
  | nil => rfl
  | cons p d ih =>
    obtain ⟨pk, pv⟩ := p
    rw [List.map_cons]
    by_cases hp : pk = k
    · subst hp
      rw [show (if ((pk, pv) : String × β).1 = pk then (pk, v) else (pk, pv))
          = (pk, v) from if_pos rfl]
      have h2 : (k' == pk) = false := beq_eq_false_iff_ne.mpr h
      have hL : List.lookup k' ((pk, v) :: List.map
          (fun p => if p.1 = pk then (pk, v) else p) d)
          = List.lookup k' (List.map
              (fun p => if p.1 = pk then (pk, v) else p) d) := by
        simp [List.lookup, h2]
      have hR : List.lookup k' ((pk, pv) :: d) = List.lookup k' d := by
        simp [List.lookup, h2]
      rw [hL, hR, ih]
    · rw [show (if ((pk, pv) : String × β).1 = k then (k, v) else (pk, pv))
          = (pk, pv) from if_neg hp]
      by_cases hk' : k' = pk
      · have hbe : (k' == pk) = true := beq_iff_eq.mpr hk'
        have hL : List.lookup k' ((pk, pv) :: List.map
            (fun p => if p.1 = k then (k, v) else p) d) = some pv := by
          simp [List.lookup, hbe]
        have hR : List.lookup k' ((pk, pv) :: d) = some pv := by
          simp [List.lookup, hbe]
        rw [hL, hR]
      · have h2 : (k' == pk) = false := beq_eq_false_iff_ne.mpr hk'
        have hL : List.lookup k' ((pk, pv) :: List.map
            (fun p => if p.1 = k then (k, v) else p) d)
            = List.lookup k' (List.map
                (fun p => if p.1 = k then (k, v) else p) d) := by
          simp [List.lookup, h2]
        have hR : List.lookup k' ((pk, pv) :: d) = List.lookup k' d := by
          simp [List.lookup, h2]
        rw [hL, hR, ih]

/-- Updating the binding for a present key makes its lookup the new
value. -/
theorem lookup_map_update_self {β : Type} (k : String) (v : β) :
    ∀ d : List (String × β), k ∈ d.map Prod.fst →
      (d.map (fun p => if p.1 = k then (k, v) else p)).lookup k
        = some v := by
  intro d
  induction d with
  | nil => intro h; simp at h
  | cons p d ih =>
    obtain ⟨pk, pv⟩ := p
    intro hmem
    simp only [List.map_cons] at hmem ⊢
    by_cases hp : pk = k
    · subst hp
      rw [show (if ((pk, pv) : String × β).1 = pk then (pk, v) else (pk, pv))
          = (pk, v) from if_pos rfl]
      simp [List.lookup]
    · rw [show (if ((pk, pv) : String × β).1 = k then (k, v) else (pk, pv))
          = (pk, pv) from if_neg hp]
      have hmem' : k ∈ d.map Prod.fst := by
        rcases List.mem_cons.mp hmem with he | hm
        · exact absurd he (fun h2 => hp h2.symm)
        · exact hm
      have h2 : (k == pk) = false :=
        beq_eq_false_iff_ne.mpr (fun he => hp he.symm)
      have hL : List.lookup k ((pk, pv) :: List.map
          (fun p => if p.1 = k then (k, v) else p) d)
          = List.lookup k (List.map
              (fun p => if p.1 = k then (k, v) else p) d) := by
        simp [List.lookup, h2]
      rw [hL, ih hmem']

/-- Appending a fresh binding: lookups of the new key find it, others
pass through. -/
theorem lookup_append_single {β : Type} (k k' : String) (v : β) :
    ∀ d : List (String × β), k ∉ d.map Prod.fst →
      (d ++ [(k, v)]).lookup k'
        = if k' = k then some v else d.lookup k' := by
  intro d
  induction d with
  | nil =>
    intro _
    by_cases h : k' = k
    · simp [List.lookup, h]
    · have h2 : (k' == k) = false := beq_eq_false_iff_ne.mpr h
      simp [List.lookup, h, h2]
  | cons p d ih =>
    obtain ⟨pk, pv⟩ := p
    intro hk
    simp only [List.map_cons] at hk
    have hk1 : k ≠ pk := fun he => hk (by rw [he]; exact List.mem_cons_self _ _)
    have hk2 : k ∉ d.map Prod.fst := fun hm => hk (List.mem_cons_of_mem _ hm)
    rw [List.cons_append]
    by_cases hp : k' = pk
    · have hne : k' ≠ k := by rw [hp]; exact fun he => hk1 he.symm
      have hbe : (k' == pk) = true := beq_iff_eq.mpr hp
      have hL : List.lookup k' ((pk, pv) :: (d ++ [(k, v)])) = some pv := by
        simp [List.lookup, hbe]
      have hR : List.lookup k' ((pk, pv) :: d) = some pv := by
        simp [List.lookup, hbe]
      rw [hL, hR, if_neg hne]
    · have h2 : (k' == pk) = false := beq_eq_false_iff_ne.mpr hp
      have hL : List.lookup k' ((pk, pv) :: (d ++ [(k, v)]))
          = List.lookup k' (d ++ [(k, v)]) := by
        simp [List.lookup, h2]
      have hR : List.lookup k' ((pk, pv) :: d) = List.lookup k' d := by
        simp [List.lookup, h2]
      rw [hL, ih hk2, hR]

/-- Python dictionary assignment, observed through lookup. -/
theorem dictInsert_lookup {β : Type} (d : List (String × β))
    (k k' : String) (v : β) :
    (dictInsert d k v).lookup k'
      = if k' = k then some v else d.lookup k' := by
  rw [dictInsert]
  by_cases hk : (d.map Prod.fst).contains k
  · rw [if_pos hk]
    by_cases h : k' = k
    · subst h
      rw [if_pos rfl]
      exact lookup_map_update_self k' v d (by simpa using hk)
    · rw [if_neg h]
      exact lookup_map_update_ne k k' v h d
  · rw [if_neg hk]
    exact lookup_append_single k k' v d (by simpa using hk)

/-- Python dictionary assignment adds no key other than the assigned
one. -/
theorem dictInsert_keys {β : Type} (d : List (String × β)) (k : String)
    (v : β) :
    ∀ q ∈ dictInsert d k v, q.1 ∈ d.map Prod.fst ∨ q.1 = k := by
  intro q hq
  rw [dictInsert] at hq
  by_cases hk : (d.map Prod.fst).contains k
  · rw [if_pos hk] at hq
    obtain ⟨p, hp, hq⟩ := List.mem_map.mp hq
    by_cases hp1 : p.1 = k
    · right
      rw [← hq, if_pos hp1]
    · left
      rw [← hq, if_neg hp1]
      exact List.mem_map_of_mem _ hp
  · rw [if_neg hk] at hq
    rcases List.mem_append.mp hq with h | h
    · left
      exact List.mem_map_of_mem _ h
    · right
      have : q = (k, v) := by simpa using h
      rw [this]

/-- Keys after a Python dictionary assignment: unchanged when the key was
present, extended by it otherwise. -/
theorem keys_dictInsert {β : Type} (d : List (String × β)) (k : String)
    (v : β) :
    (dictInsert d k v).map Prod.fst
      = if (d.map Prod.fst).contains k then d.map Prod.fst
        else d.map Prod.fst ++ [k] := by
  rw [dictInsert]
  by_cases hk : (d.map Prod.fst).contains k
  · rw [if_pos hk, if_pos hk, List.map_map]
    apply List.map_congr_left
    intro p _
    by_cases hp : p.1 = k
    · simp [hp]
    · simp [hp]
  · rw [if_neg hk, if_neg hk, List.map_append]
    rfl

/-- Python dictionary assignment keeps the keys duplicate-free. -/
theorem nodup_keys_dictInsert {β : Type} (d : List (String × β))
    (k : String) (v : β) (h : (d.map Prod.fst).Nodup) :
    ((dictInsert d k v).map Prod.fst).Nodup := by
  rw [keys_dictInsert]
  by_cases hk : (d.map Prod.fst).contains k
  · rwa [if_pos hk]
  · rw [if_neg hk, ← List.concat_eq_append]
    exact List.Nodup.concat (by simpa using hk) h

/-- The fan-out loop keeps the result's keys duplicate-free. -/
theorem multi_fold_nodup {α : Type} (gen : String → Except String α) :
    ∀ (platforms : List String) (init : List (String × MultiEntry α)),
      (init.map Prod.fst).Nodup →
      ((platforms.foldl (fun results platform =>
          match gen platform with
          | .ok post => dictInsert results platform (.post post)
          | .error e => dictInsert results platform (.failure e))
        init).map Prod.fst).Nodup := by
  intro platforms
  induction platforms with
  | nil => intro init h; exact h
  | cons x xs ih =>
    intro init h
    rw [List.foldl_cons]
    have hstep : (match gen x with
        | .ok post => dictInsert init x (.post post)
        | .error e => dictInsert init x (.failure e))
        = dictInsert init x (entryOf gen x) := by
      cases hg : gen x <;> simp [entryOf, hg]
    rw [hstep]
    exact ih _ (nodup_keys_dictInsert init x (entryOf gen x) h)

/-- The fan-out loop, observed through lookup: every processed platform
is bound to its own generation outcome, other keys pass through. -/
theorem multi_fold_lookup {α : Type} (gen : String → Except String α) :
    ∀ (platforms : List String) (init : List (String × MultiEntry α))
      (p : String),
      (platforms.foldl (fun results platform =>
          match gen platform with
          | .ok post => dictInsert results platform (.post post)
          | .error e => dictInsert results platform (.failure e))
        init).lookup p
        = if p ∈ platforms then some (entryOf gen p) else init.lookup p := by
  intro platforms
  induction platforms with
  | nil => intro init p; simp
  | cons x xs ih =>
    intro init p
    rw [List.foldl_cons]
    have hstep : (match gen x with
        | .ok post => dictInsert init x (.post post)
        | .error e => dictInsert init x (.failure e))
        = dictInsert init x (entryOf gen x) := by
      cases hg : gen x <;> simp [entryOf, hg]
    rw [hstep, ih]
    by_cases hp : p ∈ xs
    · rw [if_pos hp, if_pos (List.mem_cons_of_mem _ hp)]
    · rw [if_neg hp]
      by_cases hpx : p = x
      · rw [dictInsert_lookup, if_pos hpx, if_pos (by simp [hpx]), hpx]
      · rw [dictInsert_lookup, if_neg hpx,
          if_neg (by simp [hpx, hp])]

/-- The fan-out loop introduces no key outside the processed platforms. -/
theorem multi_fold_keys {α : Type} (gen : String → Except String α) :
    ∀ (platforms : List String) (init : List (String × MultiEntry α)),
      ∀ q ∈ platforms.foldl (fun results platform =>
          match gen platform with
          | .ok post => dictInsert results platform (.post post)
          | .error e => dictInsert results platform (.failure e)) init,
        q.1 ∈ init.map Prod.fst ∨ q.1 ∈ platforms := by
  intro platforms
  induction platforms with
  | nil =>
    intro init q hq
    left
    exact List.mem_map_of_mem _ hq
  | cons x xs ih =>
    intro init q hq
    rw [List.foldl_cons] at hq
    have hstep : (match gen x with
        | .ok post => dictInsert init x (.post post)
        | .error e => dictInsert init x (.failure e))
        = dictInsert init x (entryOf gen x) := by
      cases hg : gen x <;> simp [entryOf, hg]
    rw [hstep] at hq
    rcases ih (dictInsert init x (entryOf gen x)) q hq with h | h
    · obtain ⟨q', hq', he⟩ := List.mem_map.mp h
      rcases dictInsert_keys init x (entryOf gen x) q' hq' with h' | h'
      · left
        rw [← he]
        exact h'
      · right
        rw [← he, h']
        exact List.mem_cons_self _ _
    · right
      exact List.mem_cons_of_mem _ h

/-- C3: the multi-platform fan-out returns a mapping that binds every
requested platform to either its generated post or the error entry made
from the exception raised for it, and contains no other keys; the fan-out
itself is a total function of the per-platform outcomes, so no exception
escapes it. -/
theorem claim_C3_multi_platform :
    ∀ (α : Type) (gen : String → Except String α) (platforms : List String),
      (∀ p ∈ platforms,
        (generate_multi_platform_content gen platforms).lookup p
          = some (entryOf gen p))
      ∧ (∀ q ∈ generate_multi_platform_content gen platforms,
          q.1 ∈ platforms)
      ∧ ((generate_multi_platform_content gen platforms).map
          Prod.fst).Nodup := by
  intro α gen platforms
  refine ⟨?_, ?_, ?_⟩
  · intro p hp
    rw [generate_multi_platform_content, multi_fold_lookup gen platforms [] p,
      if_pos hp]
  · intro q hq
    rw [generate_multi_platform_content] at hq
    rcases multi_fold_keys gen platforms [] q hq with h | h
    · simp at h
    · exact h
  · rw [generate_multi_platform_content]
    exact multi_fold_nodup gen platforms [] List.nodup_nil

/-- Closed instance of C3: with the Instagram pipeline raising "boom",
the fan-out still binds every platform, the failed one to the error
entry and the healthy ones to their posts. -/
theorem claim_C3_witness :
    ("instagram" ∈ (["twitter", "instagram", "linkedin"] : List String))
    ∧ ("twitter" ∈ (["twitter", "instagram", "linkedin"] : List String))
    ∧ (generate_multi_platform_content fixtureGen
        ["twitter", "instagram", "linkedin"]).lookup "instagram"
        = some (entryOf fixtureGen "instagram")
    ∧ (generate_multi_platform_content fixtureGen
        ["twitter", "instagram", "linkedin"]).lookup "twitter"
        = some (entryOf fixtureGen "twitter")
    ∧ entryOf fixtureGen "instagram" = MultiEntry.failure "boom"
    ∧ entryOf fixtureGen "twitter" = MultiEntry.post "twitter" := by
  have h := claim_C3_multi_platform String fixtureGen
    ["twitter", "instagram", "linkedin"]
  exact ⟨by decide, by decide, h.1 "instagram" (by decide),
    h.1 "twitter" (by decide), by decide, by decide⟩

/-- C8: every Instagram result dictionary successfully returned carries
exactly one of the `image` key (when image information was produced) or
the `warning` key (when no image was attached) — never neither. -/
theorem claim_C8_instagram_image_or_warning :
    ∀ (enabled : Bool) (genText : Except String String)
      (genImage : Except String (List (String × String)))
      (trendTags : List String) (trendSource : String) (r : InstagramPost),
      generate_instagram_content enabled genText genImage trendTags
        trendSource = Except.ok r →
      (r.image.isSome ∧ r.warning = none)
      ∨ (r.image = none ∧ r.warning.isSome) := by
  intro enabled genText genImage trendTags trendSource r h
  rw [generate_instagram_content] at h
  cases genText with
  | error e =>
    simp only [Bind.bind, Except.bind] at h
    exact Except.noConfusion h
  | ok caption =>
    cases enabled with
    | false =>
      simp only [Bind.bind, Except.bind, Bool.false_eq_true, if_false,
        pure, Except.pure, List.isEmpty_nil, if_true] at h
      obtain rfl := Except.ok.inj h
      right
      exact ⟨rfl, rfl⟩
    | true =>
      cases genImage with
      | error e2 =>
        simp only [Bind.bind, Except.bind, if_true] at h
        exact Except.noConfusion h
      | ok image_info =>
        simp only [Bind.bind, Except.bind, if_true, pure, Except.pure] at h
        by_cases hinfo : image_info.isEmpty
        · rw [if_pos hinfo] at h
          obtain rfl := Except.ok.inj h
          right
          exact ⟨rfl, rfl⟩
        · rw [if_neg hinfo] at h
          obtain rfl := Except.ok.inj h
          left
          exact ⟨rfl, rfl⟩

/-- Closed instance of C8 with image generation disabled: the result
carries the warning and no image. -/
theorem claim_C8_witness :
    generate_instagram_content false (Except.ok "Astro update")
      (Except.ok []) [] "unknown" = Except.ok fixtureInstagramPost
    ∧ ((fixtureInstagramPost.image.isSome
        ∧ fixtureInstagramPost.warning = none)
      ∨ (fixtureInstagramPost.image = none
        ∧ fixtureInstagramPost.warning.isSome)) := by
  have hrun : generate_instagram_content false (Except.ok "Astro update")
      (Except.ok []) [] "unknown" = Except.ok fixtureInstagramPost := rfl
  exact ⟨hrun,
    claim_C8_instagram_image_or_warning false (Except.ok "Astro update")
      (Except.ok []) [] "unknown" fixtureInstagramPost hrun⟩

/-- C9 counterexample: a profile that is present but lacks the `voice`
field.  `get_brand_voice` returns the empty dictionary there, not the
default profile's voice part, refuting the claim that every accessor
substitutes the corresponding part of the default whenever the requested
field is absent. -/
theorem claim_C9_counterexample :
    get_brand_voice fixturePartialGuidelines
      ≠ objGetD default_guidelines "voice" (Val.obj []) := by
  intro h
  have hL : get_brand_voice fixturePartialGuidelines = Val.obj [] := rfl
  have hR : objGetD default_guidelines "voice" (Val.obj [])
      = Val.obj
          [("description",
            Val.s "Educational, enthusiastic, and authoritative but accessible."),
           ("traits", Val.arr
             [Val.s "Friendly language that makes complex topics approachable",
              Val.s "Conversational but accurate",
              Val.s "Balances technical precision with engaging explanations",
              Val.s "Passionate about astronomy and space science"])] := rfl
  rw [hL, hR] at h
  injection h with h2
  exact List.noConfusion h2

/-- C9 (amended): the default profile carries every required top-level
field; each accessor substitutes the corresponding part of the default
profile when the stored profile is absent (falsy); but when a profile is
present and merely lacks the requested field, the accessors return an
empty fallback (empty dictionary or empty list) instead of the default
part — with the single exception of `get_platform_guidelines`, which also
substitutes the default profile when the `platforms` key is absent.
Present fields are returned as stored. -/
theorem claim_C9_accessor_defaults :
    ((objGet default_guidelines "brand_name").isSome
      ∧ (objGet default_guidelines "voice").isSome
      ∧ (objGet default_guidelines "content_requirements").isSome
      ∧ (objGet default_guidelines "prohibited_content").isSome
      ∧ (objGet default_guidelines "visual_style").isSome
      ∧ (objGet default_guidelines "product_mentions").isSome
      ∧ (objGet default_guidelines "platforms").isSome
      ∧ (objGet default_guidelines "product_features").isSome
      ∧ (objGet default_guidelines "target_audience").isSome)
    ∧ (∀ g : Guidelines, g = [] →
        get_guidelines g = default_guidelines
        ∧ get_brand_voice g = objGetD default_guidelines "voice" (Val.obj [])
        ∧ get_content_requirements g
            = objGetD default_guidelines "content_requirements" (Val.arr [])
        ∧ get_prohibited_content g
            = objGetD default_guidelines "prohibited_content" (Val.arr [])
        ∧ get_visual_style g
            = objGetD default_guidelines "visual_style" (Val.obj [])
        ∧ get_product_mentions g
            = objGetD default_guidelines "product_mentions" (Val.obj [])
        ∧ get_target_audience g
            = objGetD default_guidelines "target_audience" (Val.obj [])
        ∧ get_product_features g
            = objGetD default_guidelines "product_features" (Val.arr [])
        ∧ ∀ platform : String,
            get_platform_guidelines g platform
              = valGetD (objGetD default_guidelines "platforms" (Val.obj []))
                  (pyLower platform) (Val.obj []))
    ∧ (∀ g : Guidelines, g ≠ [] →
        (objGet g "voice" = none → get_brand_voice g = Val.obj [])
        ∧ (∀ v, objGet g "voice" = some v → get_brand_voice g = v)
        ∧ (objGet g "content_requirements" = none →
            get_content_requirements g = Val.arr [])
        ∧ (objGet g "prohibited_content" = none →
            get_prohibited_content g = Val.arr [])
        ∧ (objGet g "visual_style" = none → get_visual_style g = Val.obj [])
        ∧ (objGet g "product_mentions" = none →
            get_product_mentions g = Val.obj [])
        ∧ (objGet g "target_audience" = none →
            get_target_audience g = Val.obj [])
        ∧ (objGet g "product_features" = none →
            get_product_features g = Val.arr [])
        ∧ (objGet g "platforms" = none → ∀ platform : String,
            get_platform_guidelines g platform
              = valGetD (objGetD default_guidelines "platforms" (Val.obj []))
                  (pyLower platform) (Val.obj []))) := by
  refine ⟨⟨rfl, rfl, rfl, rfl, rfl, rfl, rfl, rfl, rfl⟩, ?_, ?_⟩
  · intro g hg
    subst hg
    exact ⟨rfl, rfl, rfl, rfl, rfl, rfl, rfl, rfl, fun platform => rfl⟩
  · intro g hg
    have hne : g.isEmpty = false := by
      cases g with
      | nil => exact absurd rfl hg
      | cons p g => rfl
    refine ⟨?_, ?_, ?_, ?_, ?_, ?_, ?_, ?_, ?_⟩
    · intro hv
      rw [get_brand_voice, if_neg (by simp [hne]), objGetD, hv]
      rfl
    · intro v hv
      rw [get_brand_voice, if_neg (by simp [hne]), objGetD, hv]
      rfl
    · intro hv
      rw [get_content_requirements, if_neg (by simp [hne]), objGetD, hv]
      rfl
    · intro hv
      rw [get_prohibited_content, if_neg (by simp [hne]), objGetD, hv]
      rfl
    · intro hv
      rw [get_visual_style, if_neg (by simp [hne]), objGetD, hv]
      rfl
    · intro hv
      rw [get_product_mentions, if_neg (by simp [hne]), objGetD, hv]
      rfl
    · intro hv
      rw [get_target_audience, if_neg (by simp [hne]), objGetD, hv]
      rfl
    · intro hv
      rw [get_product_features, if_neg (by simp [hne]), objGetD, hv]
      rfl
    · intro hv platform
      rw [get_platform_guidelines, if_pos (by simp [hv])]

/-- Closed instance of C9 (amended): the empty profile gets the default
voice part, while a present profile without a `voice` field gets the
empty dictionary. -/
theorem claim_C9_witness :
    (([] : Guidelines) = [])
    ∧ get_guidelines [] = default_guidelines
    ∧ get_brand_voice [] = objGetD default_guidelines "voice" (Val.obj [])
    ∧ (fixturePartialGuidelines ≠ [])
    ∧ (objGet fixturePartialGuidelines "voice" = none)
    ∧ get_brand_voice fixturePartialGuidelines = Val.obj [] := by
  have h2 := claim_C9_accessor_defaults.2.1 [] rfl
  have hne : fixturePartialGuidelines ≠ [] := by
    intro h
    exact List.noConfusion h
  have h3 := claim_C9_accessor_defaults.2.2 fixturePartialGuidelines hne
  exact ⟨rfl, h2.1, h2.2.1, hne, rfl, h3.1 rfl⟩

end SocialMediaPostsTools
